import Mathlib

/-!
Shallow embedding of the CSS value parsers of `happy-dom`
(`CSSStyleDeclarationValueParser.ts` and
`CSSStyleDeclarationPropertyValueParser.ts`), together with theorems
checking the natural-language specification against the code.

JavaScript strings are modelled as `String`/`List Char`, `null` results as
`Option.none`, and the regular expressions of the source are embedded
compositionally: each regex piece is a `List Char → Bool` full-match test and
sequencing is an executable search over all split points (the language
semantics of a regex, which is backtracking-independent).
-/

set_option maxHeartbeats 1000000
set_option linter.unusedVariables false

/-- JavaScript `\s` whitespace class (the ASCII part, which is all the
source's inputs use). -/
def isJsWs (c : Char) : Bool :=
  c = ' ' || c = '\t' || c = '\n' || c = '\r' || c = Char.ofNat 11 || c = Char.ofNat 12

/-- Hexadecimal digit, `[0-9a-fA-F]`. -/
def isHexDigit (c : Char) : Bool :=
  c.isDigit || ('a' ≤ c && c ≤ 'f') || ('A' ≤ c && c ≤ 'F')

/-- JavaScript `String.prototype.toLowerCase` (per-character lowering; the
source only lowercases ASCII keywords). -/
def toLowerStr (s : String) : String :=
  String.mk (s.data.map Char.toLower)

/-- JavaScript `String.prototype.trim`. -/
def jsTrim (s : String) : String :=
  String.mk (((s.data.dropWhile isJsWs).reverse.dropWhile isJsWs).reverse)

/-- Worker for JavaScript `String.prototype.split` with a one-class regex
such as `/ +/` or `/\s+/`: splits on maximal runs of separator characters,
keeping empty pieces at the ends exactly as JS does.  The second argument
is `some acc` while a piece is being accumulated and `none` while inside a
separator run. -/
def goSplit (p : Char → Bool) : List Char → Option (List Char) → List (List Char)
  | [], some acc => [acc.reverse]
  | [], none => [[]]
  | c :: rest, some acc =>
    if p c then acc.reverse :: goSplit p rest none
    else goSplit p rest (some (c :: acc))
  | c :: rest, none =>
    if p c then goSplit p rest none
    else goSplit p rest (some [c])

/-- JavaScript `value.split(/ +/)`. -/
def jsSplitSp (s : String) : List String :=
  (goSplit (fun c => c = ' ') s.data (some [])).map String.mk

/-- JavaScript `value.split(/\s+/)`. -/
def jsSplitWs (s : String) : List String :=
  (goSplit isJsWs s.data (some [])).map String.mk

/-- Whether JavaScript `parseInt(s)` (radix unspecified) is not `NaN`:
after leading whitespace and an optional sign there must be a decimal
digit, or a `0x`/`0X` prefix followed by a hexadecimal digit. -/
def jsParseIntOk (s : String) : Bool :=
  let cs := s.data.dropWhile isJsWs
  let cs1 := match cs with
    | c :: rest => if c = '+' || c = '-' then rest else cs
    | [] => []
  match cs1 with
  | c1 :: c2 :: rest =>
    if c1 = '0' && (c2 = 'x' || c2 = 'X') then
      match rest with
      | r :: _ => isHexDigit r
      | [] => false
    else c1.isDigit
  | [c] => c.isDigit
  | [] => false

/-! ### Regex combinators (full-match language semantics) -/

/-- Exact literal piece. -/
def litP (l : List Char) (cs : List Char) : Bool := cs == l

/-- Sequencing of two regex pieces: some split of the input matches. -/
def seqP (p q : List Char → Bool) (cs : List Char) : Bool :=
  (List.range (cs.length + 1)).any fun i => p (cs.take i) && q (cs.drop i)

/-- `X?` for a single character. -/
def optCharP (c : Char) (cs : List Char) : Bool := cs == [] || cs == [c]

/-- `\s*`. -/
def wsStar (cs : List Char) : Bool := cs.all isJsWs

/-- `[0-9]*`. -/
def digitsStar (cs : List Char) : Bool := cs.all Char.isDigit

/-- `[0-9]+`. -/
def digitsPlus (cs : List Char) : Bool := !cs.isEmpty && cs.all Char.isDigit

/-- `-?`. -/
def minusOpt (cs : List Char) : Bool := cs == [] || cs == ['-']

/-- `[-+]?`. -/
def signOpt (cs : List Char) : Bool := cs == [] || cs == ['-'] || cs == ['+']

/-- `.` — any single character except a line terminator. -/
def anyOneP (cs : List Char) : Bool :=
  cs.length == 1 && !(cs == ['\n'] || cs == ['\r'])

/-- `\.?`. -/
def dotOpt (cs : List Char) : Bool := cs == [] || cs == ['.']

/-! ### `CSSStyleDeclarationValueParser.ts` -/

/-- Number shape `[0-9]*\.?[0-9]+` of `LENGTH_REGEXP`/`PERCENTAGE_REGEXP`. -/
def numShape : List Char → Bool :=
  seqP digitsStar (seqP dotOpt digitsPlus)

/-- The unit alternation `(in|cm|em|mm|pt|pc|px|ex|rem|vh|vw|ch)`. -/
def unitAlt (cs : List Char) : Bool :=
  [['i','n'], ['c','m'], ['e','m'], ['m','m'], ['p','t'], ['p','c'],
   ['p','x'], ['e','x'], ['r','e','m'], ['v','h'], ['v','w'], ['c','h']].any
    fun u => litP u cs

/-- `LENGTH_REGEXP = /^(0|[-+]?[0-9]*\.?[0-9]+(in|cm|...|ch))$/`. -/
def lengthTest (s : String) : Bool :=
  s.data == ['0'] || seqP signOpt (seqP numShape unitAlt) s.data

/-- `PERCENTAGE_REGEXP = /^[-+]?[0-9]*\.?[0-9]+%$/`. -/
def percentageTest (s : String) : Bool :=
  seqP signOpt (seqP numShape (litP ['%'])) s.data

/-- Hex group `[0-9a-fA-F]{3,4}`. -/
def hexGroup (cs : List Char) : Bool :=
  cs.all isHexDigit && (cs.length == 3 || cs.length == 4)

/-- `([0-9a-fA-F]{3,4}){1,2}`. -/
def hexRep12 (cs : List Char) : Bool :=
  hexGroup cs || seqP hexGroup hexGroup cs

/-- First alternative of `COLOR_REGEXP`: `^#([0-9a-fA-F]{3,4}){1,2}$`. -/
def hexAlt : List Char → Bool :=
  seqP (litP ['#']) hexRep12

/-- `^rgb\(([^)]*)\)$`. -/
def rgbAlt : List Char → Bool :=
  seqP (litP ['r','g','b','(']) (seqP (fun cs => cs.all (· ≠ ')')) (litP [')']))

/-- `^rgba\(([^)]*)\)$`. -/
def rgbaAlt : List Char → Bool :=
  seqP (litP ['r','g','b','a','(']) (seqP (fun cs => cs.all (· ≠ ')')) (litP [')']))

/-- Number alternation `(-?\d+|-?\d*.\d+)` of the `hsl` alternative (the
dot of the source regex is unescaped, so it is `.`, any character). -/
def hslNum (cs : List Char) : Bool :=
  seqP minusOpt digitsPlus cs || seqP minusOpt (seqP digitsStar (seqP anyOneP digitsPlus)) cs

/-- Optional alpha part `(,\s*(-?\d+|-?\d*.\d+)\s*)?`. -/
def hslAlpha (cs : List Char) : Bool :=
  cs == [] || seqP (litP [',']) (seqP wsStar (seqP hslNum wsStar)) cs

/-- The `hsla?\(...\)` alternative of `COLOR_REGEXP`; it has no trailing
`$`, so in `getColor` it is matched against a prefix of the input only. -/
def hslBody : List Char → Bool :=
  seqP (litP ['h','s','l'])
    (seqP (optCharP 'a')
      (seqP (litP ['('])
        (seqP wsStar
          (seqP hslNum
            (seqP wsStar
              (seqP (litP [','])
                (seqP wsStar
                  (seqP hslNum
                    (seqP (litP ['%'])
                      (seqP wsStar
                        (seqP (litP [','])
                          (seqP wsStar
                            (seqP hslNum
                              (seqP (litP ['%'])
                                (seqP wsStar
                                  (seqP hslAlpha (litP [')'])))))))))))))))))

/-- The `hsl` alternative as used by `RegExp.prototype.test`: true when some
prefix of the input matches `hslBody`. -/
def hslPrefixAlt (cs : List Char) : Bool :=
  (List.range (cs.length + 1)).any fun i => hslBody (cs.take i)

/-- `COLOR_REGEXP.test(value)`. -/
def colorTest (s : String) : Bool :=
  hexAlt s.data || rgbAlt s.data || rgbaAlt s.data || hslPrefixAlt s.data

/-- `URL_REGEXP = /^url\(\s*([^)]*)\s*\)$/` — `exec`, returning the first
capture group.  The capture `[^)]*` is greedy, so it absorbs everything
between the leading whitespace and the final `)` (including trailing
whitespace, which cannot backtrack into the second `\s*`). -/
def urlExec (value : String) : Option (List Char) :=
  let cs := value.data
  if cs.take 4 = ['u','r','l','('] ∧ cs.getLast? = some ')' then
    let mid := (cs.drop 4).dropLast
    if mid.all (· ≠ ')') then some (mid.dropWhile isJsWs) else none
  else none

/-- The character scan of `getURL` over the (possibly quote-stripped)
token: rejects `( ) space tab newline ' "`; a backslash skips the
following character. -/
def scanURL : List Char → Bool
  | [] => true
  | c :: rest =>
    if c = '(' || c = ')' || c = ' ' || c = '\t' || c = '\n' || c = '\'' || c = '"' then
      false
    else if c = '\\' then
      match rest with
      | [] => true
      | _ :: rs => scanURL rs
    else scanURL rest

/-- JavaScript `url.substring(1, url.length - 1)`: `substring` swaps its
arguments when `start > end`, so for a one-character string it returns the
string itself. -/
def jsStripEnds (u : List Char) : List Char :=
  if u.length = 1 then u else (u.drop 1).dropLast

namespace CSSStyleDeclarationValueParser

/-- `getLength`. -/
def getLength (value : String) : Option String :=
  if value = "0" then some "0px"
  else if lengthTest value then some value
  else none

/-- `getPercentage`. -/
def getPercentage (value : String) : Option String :=
  if value = "0" then some "0%"
  else if percentageTest value then some value
  else none

/-- `getMeasurement`. -/
def getMeasurement (value : String) : Option String :=
  let lowerValue := toLowerStr value
  if lowerValue = "inherit" ∨ lowerValue = "initial" ∨ lowerValue = "revert" ∨
      lowerValue = "unset" then
    some lowerValue
  else
    match getLength value with
    | some l => some l
    | none => getPercentage value

/-- `getMeasurementOrAuto`. -/
def getMeasurementOrAuto (value : String) : Option String :=
  let lowerValue := toLowerStr value
  if lowerValue = "auto" then some lowerValue
  else getMeasurement value

/-- `getInteger` — `if (!isNaN(parseInt(value))) return value;`. -/
def getInteger (value : String) : Option String :=
  if jsParseIntOk value then some value else none

/-- `getColor`. -/
def getColor (value : String) : Option String :=
  if colorTest value then some value else none

/-- `getURL`. -/
def getURL (value : String) : Option String :=
  if value = "" then none
  else
    let lowerValue := toLowerStr value
    if lowerValue = "none" ∨ lowerValue = "inherit" then some lowerValue
    else
      match urlExec value with
      | none => none
      | some url =>
        if (url.head? = some '"' ∨ url.head? = some '\'') ∧ url.head? ≠ url.getLast? then
          none
        else
          let url2 := if url.head? = some '"' ∨ url.head? = some '\'' then jsStripEnds url else url
          if scanURL url2 then some value else none

end CSSStyleDeclarationValueParser

/-! ### `CSSStyleDeclarationPropertyValueParser.ts` -/

/-- One longhand's resolved value, `ICSSStyleDeclarationPropertyValue`.
`value` is an `Option` because `getFlexBasis` can store a `null` value, and
`important` is an `Option` because some internal call sites pass no
`important` argument (JavaScript `undefined`). -/
structure PropVal where
  value : Option String
  important : Option Bool
deriving DecidableEq, Repr

/-- A JavaScript object mapping longhand names to `PropVal`, in insertion
order. -/
abbrev PMap := List (String × PropVal)

/-- JavaScript property assignment `m[k] = v`: updates an existing key in
place, otherwise appends. -/
def setP (m : PMap) (k : String) (v : PropVal) : PMap :=
  if m.any (fun kv => kv.1 == k) then
    m.map fun kv => if kv.1 == k then (k, v) else kv
  else m ++ [(k, v)]

/-- `Object.assign(m, extra)` restricted to our maps. -/
def assignP (m : PMap) (extra : PMap) : PMap :=
  extra.foldl (fun acc kv => setP acc kv.1 kv.2) m

/-- The three-state channel of the shorthand expanders: a slot is `absent`
(the positional token was missing, JS `''`), `nullv` (the token was present
but its grammar rejected it, JS `null`), or a present value. -/
inductive JRes (α : Type) where
  | absent : JRes α
  | nullv : JRes α
  | val : α → JRes α
deriving DecidableEq

/-- Lift an `Option` result (string-or-null) into the channel. -/
def strRes (o : Option String) : JRes String :=
  match o with
  | some s => .val s
  | none => .nullv

/-- Lift an `Option` map result into the channel. -/
def mapRes (o : Option PMap) : JRes PMap :=
  match o with
  | some m => .val m
  | none => .nullv

/-- JS truthiness of a string slot (`''` and `null` are falsy). -/
def truthyS : JRes String → Bool
  | .val s => s ≠ ""
  | _ => false

/-- JS truthiness of an object slot (objects are truthy). -/
def truthyM : JRes PMap → Bool
  | .val _ => true
  | _ => false

/-- `!== null`. -/
def notNullJ {α : Type} : JRes α → Bool
  | .nullv => false
  | _ => true

/-- Extract a present string (only used under a truthiness guard). -/
def JRes.getS : JRes String → String
  | .val s => s
  | _ => ""

/-- Extract a present map (only used under a truthiness guard). -/
def JRes.getM : JRes PMap → PMap
  | .val m => m
  | _ => []

/-- JS truthiness of a string-or-null. -/
def truthyOS : Option String → Bool
  | some s => s ≠ ""
  | none => false

namespace CSSStyleDeclarationPropertyValueParser

def BORDER_STYLE : List String :=
  ["none", "hidden", "dotted", "dashed", "solid", "double", "groove", "ridge",
   "inset", "outset"]

def BORDER_WIDTH : List String :=
  ["thin", "medium", "thick", "inherit", "initial", "unset", "revert"]

def BACKGROUND_REPEAT : List String :=
  ["repeat", "repeat-x", "repeat-y", "no-repeat", "inherit"]

def BACKGROUND_ATTACHMENT : List String := ["scroll", "fixed", "inherit"]

def BACKGROUND_POSITION : List String := ["top", "center", "bottom", "left", "right"]

def FLEX_BASIS : List String :=
  ["auto", "fill", "max-content", "min-content", "fit-content", "content",
   "inherit", "initial", "revert", "unset"]

/-- `getBorderStyle`. -/
def getBorderStyle (value : String) (important : Option Bool) : Option PMap :=
  let lowerValue := toLowerStr value
  if lowerValue ∈ BORDER_STYLE then
    some [("border-style", ⟨some lowerValue, important⟩)]
  else none

/-- `getBorderWidth`. -/
def getBorderWidth (value : String) (important : Option Bool) : Option PMap :=
  let lowerValue := toLowerStr value
  if lowerValue ∈ BORDER_WIDTH then
    some [("border-width", ⟨some lowerValue, important⟩)]
  else
    match CSSStyleDeclarationValueParser.getLength value with
    | some length => some [("border-width", ⟨some length, important⟩)]
    | none => none

/-- `getBackgroundRepeat`. -/
def getBackgroundRepeat (value : String) (important : Option Bool) : Option PMap :=
  let lowerValue := toLowerStr value
  if lowerValue ∈ BACKGROUND_REPEAT then
    some [("background-repeat", ⟨some lowerValue, important⟩)]
  else none

/-- `getBackgroundAttachment`. -/
def getBackgroundAttachment (value : String) (important : Option Bool) : Option PMap :=
  let lowerValue := toLowerStr value
  if lowerValue ∈ BACKGROUND_ATTACHMENT then
    some [("background-attachment", ⟨some lowerValue, important⟩)]
  else none

/-- `getBackgroundPosition`. -/
def getBackgroundPosition (value : String) (important : Option Bool) : Option PMap :=
  if value = "" then none
  else
    let parts := jsSplitWs value
    if parts.length > 2 ∨ parts.length < 1 then none
    else if parts.length = 1 then
      if truthyOS (CSSStyleDeclarationValueParser.getLength (parts.getD 0 "")) then
        some [("background-position", ⟨some value, important⟩)]
      else if parts.getD 0 "" ≠ "" then
        let lowerValue := toLowerStr value
        if lowerValue ∈ BACKGROUND_POSITION ∨ lowerValue = "inherit" then
          some [("background-position", ⟨some lowerValue, important⟩)]
        else none
      else none
    else
      if (truthyOS (CSSStyleDeclarationValueParser.getLength (parts.getD 0 "")) ||
            truthyOS (CSSStyleDeclarationValueParser.getPercentage (parts.getD 0 ""))) &&
          (truthyOS (CSSStyleDeclarationValueParser.getLength (parts.getD 1 "")) ||
            truthyOS (CSSStyleDeclarationValueParser.getPercentage (parts.getD 1 ""))) then
        some [("background-position", ⟨some (toLowerStr value), important⟩)]
      else if toLowerStr (parts.getD 0 "") ∈ BACKGROUND_POSITION ∧
          toLowerStr (parts.getD 1 "") ∈ BACKGROUND_POSITION then
        some [("background-position",
          ⟨some (toLowerStr (parts.getD 0 "") ++ " " ++ toLowerStr (parts.getD 1 "")), important⟩)]
      else none

/-- `getFlexBasis` — note that unlike its siblings it never returns `null`:
when the value is neither a keyword nor a length it still returns an entry
whose `value` field is the (possibly `null`) result of `getLength`. -/
def getFlexBasis (value : String) (important : Option Bool) : Option PMap :=
  let lowerValue := toLowerStr value
  if lowerValue ∈ FLEX_BASIS then
    some [("flex-basis", ⟨some lowerValue, important⟩)]
  else
    some [("flex-basis", ⟨CSSStyleDeclarationValueParser.getLength value, important⟩)]

/-- `getBorder`: splits on `/ +/`, validates positionally, then emits the
width map into the four side width longhands, the style map into the four
side style longhands, and — as written in the source — the color into the
four side *style* longhands again, overwriting them; the success condition
requires the width to be present and valid but only requires style and
color to be non-`null` (an absent `''` passes). -/
def getBorder (value : String) (important : Bool) : Option PMap :=
  let parts := jsSplitSp value
  let borderWidth : JRes PMap :=
    if parts.getD 0 "" ≠ "" then mapRes (getBorderWidth (parts.getD 0 "") (some important))
    else .absent
  let borderStyle : JRes PMap :=
    if parts.getD 1 "" ≠ "" then mapRes (getBorderStyle (parts.getD 1 "") (some important))
    else .absent
  let borderColor : JRes String :=
    if parts.getD 2 "" ≠ "" then strRes (CSSStyleDeclarationValueParser.getColor (parts.getD 2 ""))
    else .absent
  let pv1 : PMap :=
    if truthyM borderWidth then
      let w := (borderWidth.getM.lookup "border-width").getD ⟨none, none⟩
      setP (setP (setP (setP [] "border-top-width" w) "border-right-width" w)
        "border-bottom-width" w) "border-left-width" w
    else []
  let pv2 : PMap :=
    if truthyM borderStyle then
      let s := (borderStyle.getM.lookup "border-style").getD ⟨none, none⟩
      setP (setP (setP (setP pv1 "border-top-style" s) "border-right-style" s)
        "border-bottom-style" s) "border-left-style" s
    else pv1
  let pv3 : PMap :=
    if truthyS borderColor then
      let c : PropVal := ⟨some borderColor.getS, some important⟩
      setP (setP (setP (setP pv2 "border-top-style" c) "border-right-style" c)
        "border-bottom-style" c) "border-left-style" c
    else pv2
  if truthyM borderWidth && notNullJ borderStyle && notNullJ borderColor then some pv3
  else none

/-- `getBorderByPosition` (the directional `border-top/right/bottom/left`):
requires all three slots to be present and valid, and emits the three
side-specific longhands, with the color correctly under `border-*-color`. -/
def getBorderByPosition (position : String) (value : String) (important : Bool) : Option PMap :=
  let parts := jsSplitSp value
  let borderWidth : JRes PMap :=
    if parts.getD 0 "" ≠ "" then mapRes (getBorderWidth (parts.getD 0 "") (some important))
    else .absent
  let borderStyle : JRes PMap :=
    if parts.getD 1 "" ≠ "" then mapRes (getBorderStyle (parts.getD 1 "") (some important))
    else .absent
  let borderColor : JRes String :=
    if parts.getD 2 "" ≠ "" then strRes (CSSStyleDeclarationValueParser.getColor (parts.getD 2 ""))
    else .absent
  if truthyM borderWidth && truthyM borderStyle && truthyS borderColor then
    some [("border-" ++ position ++ "-width",
            (borderWidth.getM.lookup "border-width").getD ⟨none, none⟩),
          ("border-" ++ position ++ "-style",
            (borderStyle.getM.lookup "border-style").getD ⟨none, none⟩),
          ("border-" ++ position ++ "-color", ⟨some borderColor.getS, some important⟩)]
  else none

/-- `getPaddingByPosition`. -/
def getPaddingByPosition (position : String) (value : String) (important : Bool) : Option PMap :=
  match CSSStyleDeclarationValueParser.getMeasurement value with
  | some measurement => some [("padding-" ++ position, ⟨some measurement, some important⟩)]
  | none => none

/-- `getMarginByPosition`. -/
def getMarginByPosition (position : String) (value : String) (important : Bool) : Option PMap :=
  let lowerValue := toLowerStr value
  if lowerValue = "auto" then some [("margin-" ++ position, ⟨some "auto", some important⟩)]
  else
    match CSSStyleDeclarationValueParser.getMeasurement value with
    | some measurement => some [("margin-" ++ position, ⟨some measurement, some important⟩)]
    | none => none

/-- `getPadding`: as written in the source, every side is computed from
`parts[0]` (the top token); `parts[1..3]` only gate presence. -/
def getPadding (value : String) (important : Bool) : Option PMap :=
  let parts := jsSplitSp value
  let top : JRes PMap :=
    if parts.getD 0 "" ≠ "" then mapRes (getPaddingByPosition "top" (parts.getD 0 "") important)
    else .absent
  let right : JRes PMap :=
    if parts.getD 1 "" ≠ "" then mapRes (getPaddingByPosition "right" (parts.getD 0 "") important)
    else .absent
  let bottom : JRes PMap :=
    if parts.getD 2 "" ≠ "" then mapRes (getPaddingByPosition "bottom" (parts.getD 0 "") important)
    else .absent
  let left : JRes PMap :=
    if parts.getD 3 "" ≠ "" then mapRes (getPaddingByPosition "left" (parts.getD 0 "") important)
    else .absent
  let pv1 := if truthyM top then assignP [] top.getM else []
  let pv2 := if truthyM right then assignP pv1 right.getM else pv1
  let pv3 := if truthyM bottom then assignP pv2 bottom.getM else pv2
  let pv4 := if truthyM left then assignP pv3 left.getM else pv3
  if truthyM top && notNullJ right && notNullJ bottom && notNullJ left then some pv4
  else none

/-- `getMargin`: same shape as `getPadding`, including the reuse of
`parts[0]` for every side. -/
def getMargin (value : String) (important : Bool) : Option PMap :=
  let parts := jsSplitSp value
  let top : JRes PMap :=
    if parts.getD 0 "" ≠ "" then mapRes (getMarginByPosition "top" (parts.getD 0 "") important)
    else .absent
  let right : JRes PMap :=
    if parts.getD 1 "" ≠ "" then mapRes (getMarginByPosition "right" (parts.getD 0 "") important)
    else .absent
  let bottom : JRes PMap :=
    if parts.getD 2 "" ≠ "" then mapRes (getMarginByPosition "bottom" (parts.getD 0 "") important)
    else .absent
  let left : JRes PMap :=
    if parts.getD 3 "" ≠ "" then mapRes (getMarginByPosition "left" (parts.getD 0 "") important)
    else .absent
  let pv1 := if truthyM top then assignP [] top.getM else []
  let pv2 := if truthyM right then assignP pv1 right.getM else pv1
  let pv3 := if truthyM bottom then assignP pv2 bottom.getM else pv2
  let pv4 := if truthyM left then assignP pv3 left.getM else pv3
  if truthyM top && notNullJ right && notNullJ bottom && notNullJ left then some pv4
  else none

end CSSStyleDeclarationPropertyValueParser

/-- A value written into the property store by `getFlex`/`getBackground`.
Besides plain strings, the source can leak a whole longhand map into the
`value` slot (`this.getFlexBasis(parts[2])` and the one-argument
`getBackgroundRepeat`/`Attachment`/`Position` calls return maps, and the
write stores them verbatim), and can leak `null`. -/
inductive EVal where
  | str : String → EVal
  | omap : PMap → EVal
  | nullE : EVal
deriving DecidableEq, Repr

/-- One write performed on the property store (`this.properties[key] = v`). -/
structure WProp where
  value : EVal
  important : Bool
deriving DecidableEq, Repr

/-- Convert a map slot of `getBackground` into the stored value: an absent
slot stores the JS `''`, a present slot stores the map object itself. -/
def slotEVal : JRes PMap → EVal
  | .absent => .str ""
  | .nullv => .nullE
  | .val m => .omap m

namespace CSSStyleDeclarationPropertyValueParser

/-- `getFlex`: the source method writes its results into
`this.properties`, the longhand store that lives outside these two source
files; it is modelled here by returning the ordered list of writes (an
empty list when nothing is written).  Modelled from the spec:
`this.getInteger` — which has no declaration in this class — is the value
parser's `integer` recognizer (the spec: "grow: `integer`, shrink:
`integer`"); `this.getFlexBasis` is this class's own `getFlexBasis`,
called without an `important` argument exactly as in the source. -/
def getFlex (name : String) (value : String) (important : Bool) : List (String × WProp) :=
  let lowerValue := toLowerStr (jsTrim value)
  if lowerValue = "none" then
    [("flex-grow", ⟨.str "0", important⟩), ("flex-shrink", ⟨.str "0", important⟩),
     ("flex-basis", ⟨.str "auto", important⟩)]
  else if lowerValue = "auto" then
    [("flex-grow", ⟨.str "1", important⟩), ("flex-shrink", ⟨.str "1", important⟩),
     ("flex-basis", ⟨.str "auto", important⟩)]
  else if lowerValue = "initial" then
    [("flex-grow", ⟨.str "0", important⟩), ("flex-shrink", ⟨.str "0", important⟩),
     ("flex-basis", ⟨.str "auto", important⟩)]
  else if lowerValue = "inherit" then
    [("flex-grow", ⟨.str "inherit", important⟩), ("flex-shrink", ⟨.str "inherit", important⟩),
     ("flex-basis", ⟨.str "inherit", important⟩)]
  else
    let parts := jsSplitSp value
    let flexGrow : JRes String :=
      if parts.getD 0 "" ≠ "" then strRes (CSSStyleDeclarationValueParser.getInteger (parts.getD 0 ""))
      else .absent
    let flexShrink : JRes String :=
      if parts.getD 1 "" ≠ "" then strRes (CSSStyleDeclarationValueParser.getInteger (parts.getD 1 ""))
      else .absent
    let flexBasis : JRes PMap :=
      if parts.getD 2 "" ≠ "" then mapRes (getFlexBasis (parts.getD 2 "") none)
      else .absent
    if truthyS flexGrow && truthyS flexShrink && truthyM flexBasis then
      [("flex-grow", ⟨.str flexGrow.getS, important⟩),
       ("flex-shrink", ⟨.str flexShrink.getS, important⟩),
       ("flex-basis", ⟨.omap flexBasis.getM, important⟩)]
    else []

/-- `getBackground`: like `getFlex`, the writes into `this.properties` are
returned as an ordered list.  Modelled from the spec: `this.getColor` and
`this.getURL` — which have no declaration in this class — are the value
parser's `color` and `url` recognizers; `getBackgroundRepeat`,
`getBackgroundAttachment` and `getBackgroundPosition` are this class's own
methods, called without an `important` argument exactly as in the source.
On success the repeat/attachment/position slots are written
unconditionally (the stored value being the JS `''` when the slot was
absent), while color and image are written only when present. -/
def getBackground (name : String) (value : String) (important : Bool) :
    List (String × WProp) :=
  let parts0 := jsSplitSp value
  if parts0.getD 0 "" = "" then []
  else
    let parts := if truthyOS (CSSStyleDeclarationValueParser.getColor (parts0.getD 0 "")) then parts0
      else "" :: parts0
    let color : JRes String :=
      if parts.getD 0 "" ≠ "" then strRes (CSSStyleDeclarationValueParser.getColor (parts.getD 0 ""))
      else .absent
    let image : JRes String :=
      if parts.getD 1 "" ≠ "" then strRes (CSSStyleDeclarationValueParser.getURL (parts.getD 1 ""))
      else .absent
    let repeatSlot : JRes PMap :=
      if parts.getD 2 "" ≠ "" then mapRes (getBackgroundRepeat (parts.getD 2 "") none)
      else .absent
    let attachment : JRes PMap :=
      if parts.getD 3 "" ≠ "" then mapRes (getBackgroundAttachment (parts.getD 3 "") none)
      else .absent
    let position : JRes PMap :=
      if parts.getD 4 "" ≠ "" then mapRes (getBackgroundPosition (parts.getD 4 "") none)
      else .absent
    if (truthyS color || truthyS image) && notNullJ repeatSlot && notNullJ attachment &&
        notNullJ position then
      (if truthyS color then [("background-color", (⟨.str color.getS, important⟩ : WProp))] else []) ++
      (if truthyS image then [("background-image", (⟨.str image.getS, important⟩ : WProp))] else []) ++
      [("background-repeat", ⟨slotEVal repeatSlot, important⟩),
       ("background-attachment", ⟨slotEVal attachment, important⟩),
       ("background-position", ⟨slotEVal position, important⟩)]
    else []

end CSSStyleDeclarationPropertyValueParser

/-! ### Basic facts about the regex combinators -/

theorem seqP_iff (p q : List Char → Bool) (cs : List Char) :
    seqP p q cs = true ↔
      ∃ i, i ≤ cs.length ∧ p (cs.take i) = true ∧ q (cs.drop i) = true := by
  unfold seqP
  rw [List.any_eq_true]
  constructor
  · rintro ⟨i, hi, h⟩
    rw [List.mem_range] at hi
    rw [Bool.and_eq_true] at h
    exact ⟨i, by omega, h.1, h.2⟩
  · rintro ⟨i, hi, h1, h2⟩
    exact ⟨i, List.mem_range.mpr (by omega), by rw [Bool.and_eq_true]; exact ⟨h1, h2⟩⟩

theorem litP_iff (l cs : List Char) : litP l cs = true ↔ cs = l := by
  unfold litP
  exact beq_iff_eq

theorem seqP_lit_split (l : List Char) (q : List Char → Bool) (cs : List Char)
    (h : seqP (litP l) q cs = true) : ∃ t, cs = l ++ t ∧ q t = true := by
  obtain ⟨i, _, h1, h2⟩ := (seqP_iff _ _ _).mp h
  rw [litP_iff] at h1
  exact ⟨cs.drop i, by rw [← h1, List.take_append_drop], h2⟩

theorem seqP_lit_mk (l : List Char) (q : List Char → Bool) (t : List Char)
    (h : q t = true) : seqP (litP l) q (l ++ t) = true := by
  apply (seqP_iff _ _ _).mpr
  refine ⟨l.length, ?_, ?_, ?_⟩
  · rw [List.length_append]; omega
  · rw [List.take_left, litP_iff]
  · rw [List.drop_left]; exact h

/-- Characterization of `([0-9a-fA-F]{3,4}){1,2}` on all-hex inputs: it
matches exactly the lengths 3, 4, 6, 7 and 8 (note: 7 = 3 + 4 is
matched, although 7-digit hex colors do not exist in CSS). -/
theorem hexRep12_iff (s : List Char) (hhex : s.all isHexDigit = true) :
    hexRep12 s = true ↔
      s.length = 3 ∨ s.length = 4 ∨ s.length = 6 ∨ s.length = 7 ∨ s.length = 8 := by
  unfold hexRep12 hexGroup
  constructor
  · intro h
    rw [Bool.or_eq_true] at h
    rcases h with h | h
    · rw [Bool.and_eq_true] at h
      have h2 := h.2
      rw [Bool.or_eq_true, beq_iff_eq, beq_iff_eq] at h2
      omega
    · obtain ⟨i, hi, h1, h2⟩ := (seqP_iff _ _ _).mp h
      rw [Bool.and_eq_true] at h1 h2
      have e1 := h1.2
      have e2 := h2.2
      rw [Bool.or_eq_true, beq_iff_eq, beq_iff_eq] at e1 e2
      rw [List.length_take] at e1
      rw [List.length_drop] at e2
      omega
  · intro h
    have hall_take : ∀ n : Nat, (s.take n).all isHexDigit = true := by
      intro n
      rw [List.all_eq_true] at hhex ⊢
      exact fun a ha => hhex a (List.mem_of_mem_take ha)
    have hall_drop : ∀ n : Nat, (s.drop n).all isHexDigit = true := by
      intro n
      rw [List.all_eq_true] at hhex ⊢
      exact fun a ha => hhex a (List.mem_of_mem_drop ha)
    have step : ∀ i : Nat, i ≤ s.length →
        (s.take i).length = 3 ∨ (s.take i).length = 4 →
        (s.drop i).length = 3 ∨ (s.drop i).length = 4 →
        (seqP (fun cs => cs.all isHexDigit && (cs.length == 3 || cs.length == 4))
          (fun cs => cs.all isHexDigit && (cs.length == 3 || cs.length == 4)) s) = true := by
      intro i hile htk hdr
      apply (seqP_iff _ _ _).mpr
      refine ⟨i, hile, ?_, ?_⟩
      · rw [Bool.and_eq_true]
        refine ⟨hall_take i, ?_⟩
        rw [Bool.or_eq_true, beq_iff_eq, beq_iff_eq]
        exact htk
      · rw [Bool.and_eq_true]
        refine ⟨hall_drop i, ?_⟩
        rw [Bool.or_eq_true, beq_iff_eq, beq_iff_eq]
        exact hdr
    rcases h with h | h | h | h | h
    · rw [Bool.or_eq_true]
      left
      rw [Bool.and_eq_true]
      refine ⟨hhex, ?_⟩
      rw [Bool.or_eq_true, beq_iff_eq, beq_iff_eq]
      omega
    · rw [Bool.or_eq_true]
      left
      rw [Bool.and_eq_true]
      refine ⟨hhex, ?_⟩
      rw [Bool.or_eq_true, beq_iff_eq, beq_iff_eq]
      omega
    · rw [Bool.or_eq_true]
      right
      exact step 3 (by omega) (by rw [List.length_take]; omega) (by rw [List.length_drop]; omega)
    · rw [Bool.or_eq_true]
      right
      exact step 3 (by omega) (by rw [List.length_take]; omega) (by rw [List.length_drop]; omega)
    · rw [Bool.or_eq_true]
      right
      exact step 4 (by omega) (by rw [List.length_take]; omega) (by rw [List.length_drop]; omega)

theorem rgbAlt_hash (s : List Char) : rgbAlt ('#' :: s) = false := by
  cases h : rgbAlt ('#' :: s)
  · rfl
  · exfalso
    obtain ⟨t, ht, _⟩ := seqP_lit_split _ _ _ h
    simp only [List.cons_append, List.nil_append, List.cons.injEq] at ht
    exact absurd ht.1 (by decide)

theorem rgbaAlt_hash (s : List Char) : rgbaAlt ('#' :: s) = false := by
  cases h : rgbaAlt ('#' :: s)
  · rfl
  · exfalso
    obtain ⟨t, ht, _⟩ := seqP_lit_split _ _ _ h
    simp only [List.cons_append, List.nil_append, List.cons.injEq] at ht
    exact absurd ht.1 (by decide)

theorem hslBody_starts (t : List Char) (h : hslBody t = true) :
    ∃ u, t = 'h' :: 's' :: 'l' :: u := by
  obtain ⟨u, hu, _⟩ := seqP_lit_split _ _ _ h
  exact ⟨u, by simpa using hu⟩

theorem hslPrefixAlt_hash (s : List Char) : hslPrefixAlt ('#' :: s) = false := by
  cases h : hslPrefixAlt ('#' :: s)
  · rfl
  · exfalso
    unfold hslPrefixAlt at h
    rw [List.any_eq_true] at h
    obtain ⟨i, _, hbody⟩ := h
    obtain ⟨u, hu⟩ := hslBody_starts _ hbody
    cases i with
    | zero => simp at hu
    | succ n =>
      rw [List.take_succ_cons] at hu
      simp only [List.cons.injEq] at hu
      exact absurd hu.1 (by decide)

theorem hexAlt_cons (s : List Char) : hexAlt ('#' :: s) = hexRep12 s := by
  cases h : hexRep12 s
  · cases h2 : hexAlt ('#' :: s)
    · rfl
    · exfalso
      obtain ⟨t, ht, hq⟩ := seqP_lit_split _ _ _ h2
      simp only [List.cons_append, List.nil_append, List.cons.injEq] at ht
      rw [ht.2] at h
      rw [h] at hq
      exact Bool.false_ne_true hq
  · exact seqP_lit_mk ['#'] hexRep12 s h

/-! ### Idempotence lemmas for the value recognizers -/

namespace CSSStyleDeclarationValueParser

theorem getLength_idem (v r : String) (h : getLength v = some r) :
    getLength r = some r := by
  simp only [getLength] at h
  split_ifs at h with h0 h1
  · injection h with h'
    subst h'
    decide
  · injection h with h'
    subst h'
    simp [getLength, h0, h1]

theorem getPercentage_idem (v r : String) (h : getPercentage v = some r) :
    getPercentage r = some r := by
  simp only [getPercentage] at h
  split_ifs at h with h0 h1
  · injection h with h'
    subst h'
    decide
  · injection h with h'
    subst h'
    simp [getPercentage, h0, h1]

theorem getLength_shape (v r : String) (h : getLength v = some r) :
    r = "0px" ∨ r = v := by
  simp only [getLength] at h
  split_ifs at h with h0 h1
  · injection h with h'; exact Or.inl h'.symm
  · injection h with h'; exact Or.inr h'.symm

theorem getPercentage_shape (v r : String) (h : getPercentage v = some r) :
    r = "0%" ∨ r = v := by
  simp only [getPercentage] at h
  split_ifs at h with h0 h1
  · injection h with h'; exact Or.inl h'.symm
  · injection h with h'; exact Or.inr h'.symm

theorem getMeasurement_idem (v r : String) (h : getMeasurement v = some r) :
    getMeasurement r = some r := by
  have h' := h
  simp only [getMeasurement] at h'
  split_ifs at h' with hk
  · injection h' with he
    subst he
    rcases hk with h1 | h1 | h1 | h1 <;> rw [h1] <;> decide
  · cases hl : getLength v with
    | some l =>
      rw [hl] at h'
      injection h' with he
      subst he
      rcases getLength_shape v l hl with h2 | h2
      · rw [h2]; decide
      · rw [h2]; rw [h2] at h; exact h
    | none =>
      rw [hl] at h'
      rcases getPercentage_shape v r h' with h2 | h2
      · rw [h2]; decide
      · rw [h2] at h ⊢; exact h

theorem getMeasurementOrAuto_idem (v r : String)
    (h : getMeasurementOrAuto v = some r) : getMeasurementOrAuto r = some r := by
  have h' := h
  simp only [getMeasurementOrAuto] at h'
  split_ifs at h' with hk
  · injection h' with he
    subst he
    rw [hk]
    decide
  · -- r came from getMeasurement; show the "auto" branch cannot fire on r
    have hm := getMeasurement_idem v r h'
    simp only [getMeasurementOrAuto]
    split_ifs with hk2
    · -- toLowerStr r = "auto", so getMeasurement r = some r forces r = "auto"
      -- but then toLowerStr v = "auto" would contradict hk when r = v;
      -- analyse the shape of r instead
      exfalso
      have h'' := h'
      simp only [getMeasurement] at h''
      split_ifs at h'' with hk3
      · injection h'' with he
        subst he
        rcases hk3 with h1 | h1 | h1 | h1 <;> rw [h1] at hk2 <;> exact absurd hk2 (by decide)
      · cases hl : getLength v with
        | some l =>
          rw [hl] at h''
          injection h'' with he
          subst he
          rcases getLength_shape v l hl with h2 | h2
          · rw [h2] at hk2; exact absurd hk2 (by decide)
          · rw [h2] at hk2; exact hk hk2
        | none =>
          rw [hl] at h''
          rcases getPercentage_shape v r h'' with h2 | h2
          · rw [h2] at hk2; exact absurd hk2 (by decide)
          · rw [h2] at hk2; exact hk hk2
    · exact hm

theorem getInteger_idem (v r : String) (h : getInteger v = some r) :
    getInteger r = some r := by
  have h' := h
  simp only [getInteger] at h'
  split_ifs at h' with h0
  injection h' with he
  subst he
  exact h

theorem getColor_idem (v r : String) (h : getColor v = some r) :
    getColor r = some r := by
  have h' := h
  simp only [getColor] at h'
  split_ifs at h' with h0
  injection h' with he
  subst he
  exact h

theorem getURL_idem (v r : String) (h : getURL v = some r) :
    getURL r = some r := by
  have h' := h
  simp only [getURL] at h'
  split_ifs at h' with h0 h1
  · injection h' with he
    subst he
    rcases h1 with h2 | h2 <;> rw [h2] <;> decide
  · cases hu : urlExec v with
    | none => rw [hu] at h'; exact absurd h' (by simp)
    | some url =>
      rw [hu] at h'
      dsimp only at h'
      split_ifs at h' with h2 h3
      all_goals (injection h' with he; subst he; exact h)

end CSSStyleDeclarationValueParser


/-! ### The quoted-token behaviour of getURL -/

theorem C8_main (q1 q2 : Char) (inner : List Char)
    (hq1 : q1 = '"' ∨ q1 = '\'') (hq2 : q2 = '"' ∨ q2 = '\'')
    (hinner : ∀ c ∈ inner, c ≠ ')') :
    (q1 ≠ q2 →
      CSSStyleDeclarationValueParser.getURL
        (String.mk (['u','r','l','('] ++ (q1 :: inner ++ [q2]) ++ [')'])) = none) ∧
    (q1 = q2 →
      CSSStyleDeclarationValueParser.getURL
          (String.mk (['u','r','l','('] ++ (q1 :: inner ++ [q2]) ++ [')'])) =
        if scanURL inner then
          some (String.mk (['u','r','l','('] ++ (q1 :: inner ++ [q2]) ++ [')']))
        else none) := by
  have hne : String.mk (['u','r','l','('] ++ (q1 :: inner ++ [q2]) ++ [')']) ≠ "" := by
    intro hcon
    rw [String.ext_iff] at hcon
    simp at hcon
  have hlow : ¬(toLowerStr (String.mk (['u','r','l','('] ++ (q1 :: inner ++ [q2]) ++ [')'])) = "none" ∨
      toLowerStr (String.mk (['u','r','l','('] ++ (q1 :: inner ++ [q2]) ++ [')'])) = "inherit") := by
    rintro (hcon | hcon) <;>
      · unfold toLowerStr at hcon
        rw [String.ext_iff] at hcon
        simp only [List.cons_append, List.nil_append, List.map_cons] at hcon
        simp only [List.cons.injEq] at hcon
        exact absurd hcon.1 (by decide)
  have hexec : urlExec (String.mk (['u','r','l','('] ++ (q1 :: inner ++ [q2]) ++ [')'])) =
      some (q1 :: inner ++ [q2]) := by
    unfold urlExec
    rw [if_pos, if_pos]
    · show some (((((['u','r','l','('] ++ (q1 :: inner ++ [q2]) ++ [')']).drop 4).dropLast).dropWhile isJsWs)) = _
      rw [List.append_assoc]
      rw [show ((['u','r','l','('] ++ ((q1 :: inner ++ [q2]) ++ [')'])).drop 4) = (q1 :: inner ++ [q2]) ++ [')'] from rfl]
      rw [List.dropLast_concat]
      have hq1ws : isJsWs q1 = false := by rcases hq1 with h | h <;> rw [h] <;> decide
      simp [List.dropWhile_cons, hq1ws]
    · show ((((['u','r','l','('] ++ (q1 :: inner ++ [q2]) ++ [')']).drop 4).dropLast).all (fun c => c ≠ ')')) = true
      rw [List.append_assoc]
      rw [show ((['u','r','l','('] ++ ((q1 :: inner ++ [q2]) ++ [')'])).drop 4) = (q1 :: inner ++ [q2]) ++ [')'] from rfl]
      rw [List.dropLast_concat]
      rw [List.all_eq_true]
      intro c hc
      simp only [List.mem_cons, List.mem_append, List.mem_singleton] at hc
      rcases hc with (rfl | hc) | (rfl | hfalse)
      · rcases hq1 with h | h <;> rw [h] <;> decide
      · exact decide_eq_true (hinner c hc)
      · rcases hq2 with h | h <;> rw [h] <;> decide
      · exact absurd hfalse (List.not_mem_nil c)
    · constructor
      · rw [List.append_assoc]
        rfl
      · exact List.getLast?_concat _
  have hhead : (q1 :: inner ++ [q2]).head? = some q1 := rfl
  have hlast : (q1 :: inner ++ [q2]).getLast? = some q2 := by
    rw [show q1 :: inner ++ [q2] = (q1 :: inner) ++ [q2] from rfl]
    exact List.getLast?_concat _
  have hquote : (q1 :: inner ++ [q2]).head? = some '"' ∨
      (q1 :: inner ++ [q2]).head? = some '\'' := by
    rw [hhead]
    rcases hq1 with h | h <;> rw [h]
    · left; rfl
    · right; rfl
  constructor
  · intro hneq
    unfold CSSStyleDeclarationValueParser.getURL
    rw [if_neg hne]
    dsimp only
    rw [if_neg hlow, hexec]
    dsimp only
    rw [if_pos]
    refine ⟨hquote, ?_⟩
    rw [hhead, hlast]
    intro hx
    exact hneq (Option.some.inj hx)
  · intro heq
    subst heq
    unfold CSSStyleDeclarationValueParser.getURL
    rw [if_neg hne]
    dsimp only
    rw [if_neg hlow, hexec]
    dsimp only
    rw [if_neg]
    swap
    · rintro ⟨_, hcon⟩
      exact hcon (by rw [hhead, hlast])
    rw [if_pos hquote]
    have hstrip : jsStripEnds (q1 :: inner ++ [q1]) = inner := by
      unfold jsStripEnds
      rw [if_neg]
      · rw [show (q1 :: inner ++ [q1]).drop 1 = inner ++ [q1] from rfl]
        exact List.dropLast_concat
      · simp only [List.length_cons, List.length_append, List.length_singleton]
        omega
    rw [hstrip]

/-! ### Claim theorems -/

open CSSStyleDeclarationValueParser CSSStyleDeclarationPropertyValueParser

/-- C1.  The omnidirectional `border` shorthand does NOT behave as claimed:
on `"1px solid #fff"` it emits only 8 entries — the four side widths and
the four side styles — because the resolved color is written into the
`border-{side}-style` longhands (overwriting the style) and no
`border-{side}-color` longhand is ever produced; moreover `"1px"` alone
already succeeds (only the width must be present and valid; absent style
and color pass the `!== null` checks), emitting just the 4 width
longhands.  This evaluates the code at both failing inputs. -/
theorem getBorder_color_overwrites_style :
    getBorder "1px solid #fff" false = some
      [("border-top-width", ⟨some "1px", some false⟩),
       ("border-right-width", ⟨some "1px", some false⟩),
       ("border-bottom-width", ⟨some "1px", some false⟩),
       ("border-left-width", ⟨some "1px", some false⟩),
       ("border-top-style", ⟨some "#fff", some false⟩),
       ("border-right-style", ⟨some "#fff", some false⟩),
       ("border-bottom-style", ⟨some "#fff", some false⟩),
       ("border-left-style", ⟨some "#fff", some false⟩)] ∧
    getBorder "1px" false = some
      [("border-top-width", ⟨some "1px", some false⟩),
       ("border-right-width", ⟨some "1px", some false⟩),
       ("border-bottom-width", ⟨some "1px", some false⟩),
       ("border-left-width", ⟨some "1px", some false⟩)] := by
  constructor <;> decide

/-- C2.  Every expanders' error is surfaced through the empty/absent
result channel: the embedded `getFlex` and `getBackground` are total
functions (termination and freedom from abnormal aborts hold by
construction of the embedding), and for every input they either emit
nothing or emit exactly their full set of longhand keys (`getBackground`
being the partial-emission shorthand, its key set has the four allowed
shapes). -/
theorem expanders_reject_silently : ∀ (name value : String) (important : Bool),
    (getFlex name value important = [] ∨
      (getFlex name value important).map Prod.fst =
        ["flex-grow", "flex-shrink", "flex-basis"]) ∧
    (getBackground name value important = [] ∨
      (getBackground name value important).map Prod.fst ∈
        [["background-repeat", "background-attachment", "background-position"],
         ["background-color", "background-repeat", "background-attachment",
          "background-position"],
         ["background-image", "background-repeat", "background-attachment",
          "background-position"],
         ["background-color", "background-image", "background-repeat",
          "background-attachment", "background-position"]]) := by
  intro name value important
  constructor
  · unfold CSSStyleDeclarationPropertyValueParser.getFlex
    dsimp only
    split_ifs <;> simp
  · unfold CSSStyleDeclarationPropertyValueParser.getBackground
    dsimp only
    split_ifs <;> simp

/-- C3.  `flex("none")` emits exactly flex-grow = "0", flex-shrink = "0"
and flex-basis = "auto", each carrying the given important flag, and
`flex("abc")` emits nothing (a silent rejection). -/
theorem getFlex_none_and_invalid : ∀ i : Bool,
    getFlex "flex" "none" i =
      [("flex-grow", ⟨.str "0", i⟩), ("flex-shrink", ⟨.str "0", i⟩),
       ("flex-basis", ⟨.str "auto", i⟩)] ∧
    getFlex "flex" "abc" i = [] := by
  intro i
  cases i <;> exact ⟨by decide, by decide⟩

/-- C4.  The `padding` and `margin` shorthands do NOT use each side's own
token: as written, every side is validated against and emitted with the
FIRST token (`parts[0]`).  On `"1px 2px"` both emit right = "1px" instead
of "2px", and on `"1px zzz"` the invalid second token is not even looked
at, so the expansion succeeds instead of rejecting. -/
theorem getPadding_getMargin_first_token_reused :
    getPadding "1px 2px" false = some
      [("padding-top", ⟨some "1px", some false⟩),
       ("padding-right", ⟨some "1px", some false⟩)] ∧
    getMargin "1px 2px" false = some
      [("margin-top", ⟨some "1px", some false⟩),
       ("margin-right", ⟨some "1px", some false⟩)] ∧
    getPadding "1px zzz" false = some
      [("padding-top", ⟨some "1px", some false⟩),
       ("padding-right", ⟨some "1px", some false⟩)] := by
  refine ⟨by decide, by decide, by decide⟩

/-- C5.  `background` does NOT emit only the present slots: on the input
`"#fff"` (color only) it emits background-color together with
background-repeat, background-attachment and background-position, the
latter three carrying the absent slot's empty-string value, because the
repeat/attachment/position writes are unconditional inside the success
branch. -/
theorem getBackground_emits_absent_slots :
    getBackground "background" "#fff" false =
      [("background-color", ⟨.str "#fff", false⟩),
       ("background-repeat", ⟨.str "", false⟩),
       ("background-attachment", ⟨.str "", false⟩),
       ("background-position", ⟨.str "", false⟩)] := by
  decide

/-- C6.  `getFlexBasis` never rejects: for the non-keyword, non-length
value `"abc"` it still returns an entry, whose `value` field is the `null`
result of `getLength`, instead of rejecting with no entry emitted as the
claim states. -/
theorem getFlexBasis_never_rejects :
    getFlexBasis "abc" (some false) = some [("flex-basis", ⟨none, some false⟩)] := by
  decide

/-- C7 counterexample.  The color recognizer accepts `"#0000000"` — a `#`
followed by SEVEN hexadecimal digits — although 7 is not among {3,4,6,8},
refuting the claimed "iff n is 3, 4, 6, or 8". -/
theorem getColor_hex_seven_accepted :
    getColor "#0000000" = some "#0000000" ∧
    "0000000".data.all isHexDigit = true ∧
    "0000000".length = 7 ∧
    ¬((7 : Nat) = 3 ∨ (7 : Nat) = 4 ∨ (7 : Nat) = 6 ∨ (7 : Nat) = 8) := by
  refine ⟨by decide, by decide, by decide, by decide⟩

/-- C7 (amended).  For every string consisting of `#` followed by
hexadecimal digits and nothing else, the color recognizer accepts
(returning the input unchanged) if and only if the number of digits is 3,
4, 6, 7, or 8 (the regex group `([0-9a-fA-F]{3,4}){1,2}` also matches
seven digits as 3 + 4). -/
theorem getColor_hex_lengths (s : List Char) (hhex : s.all isHexDigit = true) :
    getColor (String.mk ('#' :: s)) = some (String.mk ('#' :: s)) ↔
      s.length = 3 ∨ s.length = 4 ∨ s.length = 6 ∨ s.length = 7 ∨ s.length = 8 := by
  unfold CSSStyleDeclarationValueParser.getColor
  have hct : colorTest (String.mk ('#' :: s)) = hexRep12 s := by
    unfold colorTest
    show (hexAlt ('#' :: s) || rgbAlt ('#' :: s) || rgbaAlt ('#' :: s) ||
      hslPrefixAlt ('#' :: s)) = hexRep12 s
    rw [rgbAlt_hash, rgbaAlt_hash, hslPrefixAlt_hash, hexAlt_cons]
    simp
  rw [hct, ← hexRep12_iff s hhex]
  cases h : hexRep12 s
  · simp
  · simp

/-- C7 witness: the theorem applied at "#fff". -/
theorem getColor_hex_lengths_w :
    getColor (String.mk ['#', 'f', 'f', 'f']) = some (String.mk ['#', 'f', 'f', 'f']) :=
  (getColor_hex_lengths ['f', 'f', 'f'] (by decide)).mpr (by decide)

/-- C8.  For every `url( <token> )` input whose token is quoted: mismatched
opening/closing quote characters reject; with matching quotes the quotes
are stripped and the escape-aware scan of the inner token decides
acceptance, and on acceptance the original unmodified input string is
returned.  In particular `url("a b.png")` (unescaped space) rejects while
`url("a\ b.png")` (escaped space) is accepted and returned verbatim. -/
theorem getURL_quoted_token :
    (∀ (q1 q2 : Char) (inner : List Char),
      (q1 = '"' ∨ q1 = '\'') → (q2 = '"' ∨ q2 = '\'') →
      (∀ c ∈ inner, c ≠ ')') →
      (q1 ≠ q2 →
        getURL (String.mk (['u','r','l','('] ++ (q1 :: inner ++ [q2]) ++ [')'])) = none) ∧
      (q1 = q2 →
        getURL (String.mk (['u','r','l','('] ++ (q1 :: inner ++ [q2]) ++ [')'])) =
          if scanURL inner then
            some (String.mk (['u','r','l','('] ++ (q1 :: inner ++ [q2]) ++ [')']))
          else none)) ∧
    getURL "url(\"a b.png\")" = none ∧
    getURL "url(\"a\\ b.png\")" = some "url(\"a\\ b.png\")" :=
  ⟨fun q1 q2 inner hq1 hq2 hinner => C8_main q1 q2 inner hq1 hq2 hinner,
   by decide, by decide⟩

/-- C8 witness: the theorem applied to the quoted token `"a\ b.png"`. -/
theorem getURL_quoted_token_w :
    getURL (String.mk (['u','r','l','('] ++ ('"' :: "a\\ b.png".data ++ ['"']) ++ [')'])) =
      some (String.mk (['u','r','l','('] ++ ('"' :: "a\\ b.png".data ++ ['"']) ++ [')'])) := by
  have h := (getURL_quoted_token.1 '"' '"' ("a\\ b.png".data)
    (Or.inl rfl) (Or.inl rfl) (by decide)).2 rfl
  rw [h, if_pos (by decide)]

/-- C9.  Each value recognizer is idempotent on its own accepted outputs:
for every input it accepts, feeding the canonical result back into the
same recognizer returns that result unchanged. -/
theorem recognizers_idempotent :
    (∀ v r, getLength v = some r → getLength r = some r) ∧
    (∀ v r, getPercentage v = some r → getPercentage r = some r) ∧
    (∀ v r, getMeasurement v = some r → getMeasurement r = some r) ∧
    (∀ v r, getMeasurementOrAuto v = some r → getMeasurementOrAuto r = some r) ∧
    (∀ v r, getInteger v = some r → getInteger r = some r) ∧
    (∀ v r, getColor v = some r → getColor r = some r) ∧
    (∀ v r, getURL v = some r → getURL r = some r) :=
  ⟨getLength_idem, getPercentage_idem, getMeasurement_idem, getMeasurementOrAuto_idem,
   getInteger_idem, getColor_idem, getURL_idem⟩

/-- C9 witness: length idempotence applied to `length("0") = "0px"`. -/
theorem recognizers_idempotent_w : getLength "0px" = some "0px" :=
  recognizers_idempotent.1 "0" "0px" (by decide)

/-- C10.  The color recognizer accepts every string that merely begins
with a well-formed `hsl(...)`/`hsla(...)` shape, whatever follows the
closing parenthesis, returning the whole input unchanged, because only the
hex, rgb and rgba alternatives of the pattern are anchored at the end. -/
theorem getColor_hsl_unanchored (p suffix : List Char) (h : hslBody p = true) :
    getColor (String.mk (p ++ suffix)) = some (String.mk (p ++ suffix)) := by
  unfold CSSStyleDeclarationValueParser.getColor
  have hct : colorTest (String.mk (p ++ suffix)) = true := by
    unfold colorTest
    have hp : hslPrefixAlt (p ++ suffix) = true := by
      unfold hslPrefixAlt
      rw [List.any_eq_true]
      refine ⟨p.length, List.mem_range.mpr ?_, ?_⟩
      · rw [List.length_append]; omega
      · rw [List.take_left]; exact h
    show (hexAlt (p ++ suffix) || rgbAlt (p ++ suffix) || rgbaAlt (p ++ suffix) ||
      hslPrefixAlt (p ++ suffix)) = true
    rw [hp]
    simp
  rw [hct]
  simp

/-- C10 witness: `"hsl(0, 0%, 0%)"` followed by trailing junk accepted. -/
theorem getColor_hsl_unanchored_w :
    getColor (String.mk ("hsl(0, 0%, 0%)".data ++ " trailing junk".data)) =
      some (String.mk ("hsl(0, 0%, 0%)".data ++ " trailing junk".data)) :=
  getColor_hsl_unanchored _ _ (by decide)
